import Mathlib

/-!
Verification development for the borderownership repository.

The development shallowly embeds the two source files
`src/rf_mapping/activation_rank.py` and
`src/rf_mapping/test_num_stim/test_num_stim_step2.py`.

Modelling conventions:
- Python integers are `Int`/`Nat`; Python floats arising from true division
  of small integers are modelled exactly as `ℚ`.
- Fallible Python code returns `Except PyError`; raised exceptions become
  `.error` values.
- Numpy arrays are modelled by their flat contents (`List ℚ`); where buffer
  identity matters (frame conditions) an explicit store of buffers is used.
-/

/-- View of an `Except` value as a sum, used to decide equality of
embedded results. -/
def exceptToSum {ε α : Type} : Except ε α → ε ⊕ α
  | .error e => .inl e
  | .ok a => .inr a

instance {ε α : Type} [DecidableEq ε] [DecidableEq α] :
    DecidableEq (Except ε α) := fun a b =>
  decidable_of_iff (exceptToSum a = exceptToSum b) (by
    cases a <;> cases b <;> simp [exceptToSum])

namespace ActivationRank

/-- Python exceptions that the embedded code can raise.  `attributeError ty a`
models `AttributeError` raised when an object of type `ty` has no attribute
`a`; `nameError n` models `NameError: name n is not defined`. -/
inductive PyError where
  | nameError (name : String)
  | valueError
  | typeError
  | attributeError (typeName attrName : String)
deriving DecidableEq

/-- One torch layer, as the `isinstance` dispatch in
`SpatialIndexConversion` distinguishes them.  `conv2d`, `maxPool2d` and
`avgPool2d` carry the `(vertical, horizontal)` stride, kernel size and
padding tuples of the torch module.  The eight parameterless constructors
are exactly the members of the `non_spatial_transform_types` tuple in
`_one_forward_projection`.  `other ty` is any other torch module, carrying
the printed form of its type. -/
inductive Layer where
  | conv2d (stride kernel_size padding : Nat × Nat)
  | maxPool2d (stride kernel_size padding : Nat × Nat)
  | avgPool2d (stride kernel_size padding : Nat × Nat)
  | sequential
  | moduleList
  | sigmoid
  | relu
  | tanh
  | softmax2d
  | batchNorm2d
  | dropout2d
  | other (typeName : String)
deriving DecidableEq

/-- Whether a layer is in the `non_spatial_transform_types` tuple checked
first by `_one_forward_projection`. -/
def isPassThrough : Layer → Bool
  | .sequential | .moduleList | .sigmoid | .relu | .tanh
  | .softmax2d | .batchNorm2d | .dropout2d => true
  | _ => false

/-- Printed form of `type(layer)` used by the `print` in the catch-all of
`_one_forward_projection` (the torch class name is abstracted to a string). -/
def layerTypeName : Layer → String
  | .conv2d _ _ _ => "Conv2d"
  | .maxPool2d _ _ _ => "MaxPool2d"
  | .avgPool2d _ _ _ => "AvgPool2d"
  | .sequential => "Sequential"
  | .moduleList => "ModuleList"
  | .sigmoid => "Sigmoid"
  | .relu => "ReLU"
  | .tanh => "Tanh"
  | .softmax2d => "Softmax2d"
  | .batchNorm2d => "BatchNorm2d"
  | .dropout2d => "Dropout2d"
  | .other ty => ty

/-- The local helper defined inside `_one_backward_projection`:
`(x*stride) + (kernel_size-1)/2 - padding`, with Python true division
(`/`), hence a rational result. -/
def transform (x : ℚ) (stride kernel_size padding : Nat) : ℚ :=
  x * stride + ((kernel_size : ℚ) - 1) / 2 - padding

/-- Embedding of `SpatialIndexConversion._one_forward_projection`.  The
first component is the returned value or the raised exception; the second
component is the list of lines printed to stdout.  The branch order mirrors
the source: the `non_spatial_transform_types` check first, then `Conv2d`,
then `(MaxPool2d, AvgPool2d)`, then the catch-all which prints the layer
type and raises a bare `ValueError`.  In the `Conv2d` and pool branches the
source calls `transform(...)`, but the `def transform` in that method is
commented out and no other binding of the name is in scope, so the call
raises `NameError`. -/
def _one_forward_projection (layer : Layer) (vx hx : ℚ) :
    Except PyError (ℚ × ℚ) × List String :=
  if isPassThrough layer then (.ok (vx, hx), [])
  else
    match layer with
    | .conv2d _ _ _ => (.error (.nameError "transform"), [])
    | .maxPool2d _ _ _ => (.error (.nameError "transform"), [])
    | .avgPool2d _ _ _ => (.error (.nameError "transform"), [])
    | l => (.error .valueError,
            [layerTypeName l ++ " is currently not supported."])

/-- Embedding of `SpatialIndexConversion._one_backward_projection`.  Here
the local `def transform` is present, so the `Conv2d` and `MaxPool2d`
branches apply it per axis.  Every other layer (including `AvgPool2d`,
which has no branch of its own) reaches the catch-all, which returns
`vx, hx` unchanged. -/
def _one_backward_projection (layer : Layer) (vx hx : ℚ) :
    Except PyError (ℚ × ℚ) :=
  match layer with
  | .conv2d s k p =>
      .ok (transform vx s.1 k.1 p.1, transform hx s.2 k.2 p.2)
  | .maxPool2d s k p =>
      .ok (transform vx s.1 k.1 p.1, transform hx s.2 k.2 p.2)
  | _ => .ok (vx, hx)

/-- A value passed as the `index` argument of `_process_index`: a plain
integer, a string, or a tuple of integers. -/
inductive PyIndex where
  | int (n : Int)
  | str (s : String)
  | tuple (elems : List Int)
deriving DecidableEq

/-- Python `str.isnumeric` restricted to ASCII digits: true on a nonempty
all-digit string. -/
def strIsNumeric (s : String) : Bool :=
  !s.isEmpty && s.toList.all (fun c => c.isDigit)

/-- State of a `SpatialIndexConversion` object as set up by `__init__`:
the model (its layer sequence), the image shape, and the three lists that
`__init__` initialises to `[]` and nothing ever fills. -/
structure SpatialIndexConversion where
  model : List Layer
  image_shape : Nat × Nat
  layer_indicies : List Nat
  output_shapes : List (Nat × Nat)
  rf_sizes : List (Nat × Nat)
deriving DecidableEq

/-- Embedding of `SpatialIndexConversion.__init__`. -/
def SpatialIndexConversion.init (model : List Layer) (image_shape : Nat × Nat) :
    SpatialIndexConversion :=
  ⟨model, image_shape, [], [], []⟩

/-- Embedding of `SpatialIndexConversion._process_index`.  The source first
evaluates `index.isnumeric()`: `int` and `tuple` objects have no
`isnumeric` attribute, so that lookup raises `AttributeError`.  For a
numeric string the source calls `np.unravel_index(index, self.image_shape)`
with a string argument, which numpy rejects with a `TypeError` (numpy is an
external collaborator; only the fact that it raises on non-integer input is
used).  For a non-numeric string of length 2 the string itself is returned;
any other non-numeric string falls off the end of the method, i.e. returns
Python `None` (modelled as `.ok none`). -/
def SpatialIndexConversion._process_index (self : SpatialIndexConversion)
    (index : PyIndex) : Except PyError (Option PyIndex) :=
  match index with
  | .int _ => .error (.attributeError "int" "isnumeric")
  | .tuple _ => .error (.attributeError "tuple" "isnumeric")
  | .str s =>
      if strIsNumeric s then .error .typeError
      else if s.length = 2 then .ok (some (.str s))
      else .ok none

/-- Embedding of `SpatialIndexConversion.forward_projection`.  The body of
the source method is only `index = self._process_index(index)`; it performs
no layer walk and falls off the end, returning Python `None` (modelled as
`.ok none`) unless `_process_index` raised.  The `start_layer` and
`end_layer` arguments are never read. -/
def SpatialIndexConversion.forward_projection (self : SpatialIndexConversion)
    (index : PyIndex) (start_layer end_layer : Int) :
    Except PyError (Option (ℚ × ℚ)) :=
  match self._process_index index with
  | .error e => .error e
  | .ok _ => .ok none

/-- Embedding of `SpatialIndexConversion.backward_projection` (in the
source, `end_layer` has default value `0`).  Like `forward_projection`, the
body only normalises the index and then returns Python `None`. -/
def SpatialIndexConversion.backward_projection (self : SpatialIndexConversion)
    (index : PyIndex) (start_layer end_layer : Int) :
    Except PyError (Option (ℚ × ℚ)) :=
  match self._process_index index with
  | .error e => .error e
  | .ok _ => .ok none

/-- A numpy array, modelled by its flat contents. -/
abbrev Buf := List ℚ

/-- A torch module as traversed by
`LayerOutputInspector.register_forward_hook_to_layers`: a leaf module with
a type name and a forward function, or a container with an ordered list of
children.  A container's forward pass is modelled as sequential application
of its children in declared order, which is the behaviour of the
`nn.Sequential`-structured models the file is used with. -/
inductive Module (α : Type) where
  | leaf (kind : String) (forward : α → α)
  | node (children : List (Module α))

/-- Combined embedding of hook registration
(`register_forward_hook_to_layers`: a leaf whose type matches `lt` gets
`hook_function` attached; containers are recursed into child by child) and
of one forward pass: each hooked leaf appends a detached copy of its output
to `self.layer_outputs` (the accumulator `acc`), in execution order.
Returns the module output and the updated `layer_outputs`. -/
def hookedForward {α : Type} (lt : String) :
    Module α → α → List α → α × List α
  | .leaf kind f, x, acc =>
      (f x, if kind = lt then acc ++ [f x] else acc)
  | .node [], x, acc => (x, acc)
  | .node (c :: cs), x, acc =>
      let p := hookedForward lt c x acc
      hookedForward lt (.node cs) p.1 p.2

/-- Output of a module on an input (the plain forward pass, no hooks). -/
def runModule {α : Type} : Module α → α → α
  | .leaf _ f, x => f x
  | .node [], x => x
  | .node (c :: cs), x => runModule (.node cs) (runModule c x)

/-- The outputs of the leaves whose kind matches `lt`, in execution order,
when the module is run on `x`. -/
def matchingOutputs {α : Type} (lt : String) : Module α → α → List α
  | .leaf kind f, x => if kind = lt then [f x] else []
  | .node [], _ => []
  | .node (c :: cs), x =>
      matchingOutputs lt c x ++ matchingOutputs lt (.node cs) (runModule c x)

/-- Number of leaf sub-modules whose kind matches `lt`. -/
def countMatching {α : Type} (lt : String) : Module α → Nat
  | .leaf kind _ => if kind = lt then 1 else 0
  | .node [] => 0
  | .node (c :: cs) => countMatching lt c + countMatching lt (.node cs)

/-- Minimum of a numpy array (`ndarray.min`); the source never calls it on
an empty array, where the model returns `0`. -/
def npMin (b : Buf) : ℚ :=
  match b with
  | [] => 0
  | x :: xs => xs.foldl min x

/-- Maximum of a numpy array (`ndarray.max`); `0` on the empty array. -/
def npMax (b : Buf) : ℚ :=
  match b with
  | [] => 0
  | x :: xs => xs.foldl max x

/-- The image preprocessing performed inside `LayerOutputInspector.inspect`
at the level of array contents: subtract the minimum, then divide by the
maximum of the shifted array.  The subsequent `np.expand_dims` and the
conversion to a float tensor change shape and dtype but not the flat
contents, so they do not appear at this level. -/
def normalizeImage (b : Buf) : Buf :=
  let m := npMin b
  let shifted := b.map (fun v => v - m)
  shifted.map (fun v => v / npMax shifted)

/-- Embedding of `LayerOutputInspector.inspect`: normalise the image, run
the forward pass with the registered hooks (which append to the instance
field `layer_outputs`, here `layer_outputs`), and return that field.  The
returned list is the instance state, so a second call starts from it. -/
def inspect (m : Module Buf) (lt : String) (layer_outputs : List Buf)
    (image : Buf) : List Buf :=
  (hookedForward lt m (normalizeImage image) layer_outputs).2

/-- The numpy heap of buffers: buffer `r` is `bufs.getD r []`. -/
structure Store where
  bufs : List Buf

/-- Read buffer `r` of the store. -/
def readBuf (st : Store) (r : Nat) : Buf :=
  st.bufs.getD r []

/-- Allocate a fresh buffer holding `b`, returning its reference. -/
def alloc (st : Store) (b : Buf) : Store × Nat :=
  (⟨st.bufs ++ [b]⟩, st.bufs.length)

/-- Numpy `arr - c`: reads `r` and allocates a new array; `r` itself is
not written. -/
def npSubScalar (st : Store) (r : Nat) (c : ℚ) : Store × Nat :=
  alloc st ((readBuf st r).map (fun v => v - c))

/-- Numpy `arr / c`: reads `r` and allocates a new array. -/
def npDivScalar (st : Store) (r : Nat) (c : ℚ) : Store × Nat :=
  alloc st ((readBuf st r).map (fun v => v / c))

/-- Numpy `np.expand_dims(arr, axis=0)`: returns a view with a new shape
and the same flat contents; since nothing in `inspect` writes after this
point, the view is modelled as a fresh buffer with identical contents. -/
def npExpandDims (st : Store) (r : Nat) : Store × Nat :=
  alloc st (readBuf st r)

/-- The buffer-level preprocessing chain at the start of
`LayerOutputInspector.inspect`:
`norm_image = image - image.min()`, `norm_image = norm_image/norm_image.max()`,
`norm_image = np.expand_dims(norm_image, axis=0)`.  Returns the store after
the three allocations and the reference fed (after dtype conversion, which
copies contents unchanged) to the model. -/
def inspectPreprocess (st : Store) (image : Nat) : Store × Nat :=
  let mn := npMin (readBuf st image)
  let p1 := npSubScalar st image mn
  let mx := npMax (readBuf p1.1 p1.2)
  let p2 := npDivScalar p1.1 p1.2 mx
  npExpandDims p2.1 p2.2

/-- Buffer-level embedding of `inspect`: preprocess the image in the store,
then run the hooked forward pass on the contents of the resulting buffer,
starting from the current `layer_outputs` state. -/
def inspectBuffers (m : Module Buf) (lt : String) (layer_outputs : List Buf)
    (st : Store) (image : Nat) : Store × List Buf :=
  let p := inspectPreprocess st image
  (p.1, (hookedForward lt m (readBuf p.1 p.2) layer_outputs).2)

/-- The fixed-size priority queue of `activation_rank.py`.  The Python
`list` field `h` maintained by `heapq` is modelled by its contents kept in
descending order (so its minimum — `h[0]` for `heapq` — is the last
element); `length` is the capacity `N` passed to `__init__`. -/
structure MaxHeap (α : Type) where
  h : List α
  length : Nat

/-- Embedding of `MaxHeap.__init__` (`heapify` of the empty list is the
empty list). -/
def MaxHeap.init (α : Type) [LinearOrder α] (N : Nat) : MaxHeap α :=
  ⟨[], N⟩

/-- Contents-level model of `heapq.heappush`: add `element` to the heap,
here by ordered insertion into the descending list. -/
def heappush {α : Type} [LinearOrder α] (h : List α) (element : α) : List α :=
  List.orderedInsert (fun a b => a ≥ b) element h

/-- Contents-level model of `heapq.heappushpop`: push `element`, then pop
and return the smallest element — the last element of the descending
list. -/
def heappushpop {α : Type} [LinearOrder α] (h : List α) (element : α) :
    α × List α :=
  let h' := heappush h element
  (h'.getLastD element, h'.dropLast)

/-- Embedding of `MaxHeap.add`: push while below capacity, otherwise
push-and-pop (the popped minimum is discarded, as in the source). -/
def MaxHeap.add {α : Type} [LinearOrder α] (H : MaxHeap α) (element : α) :
    MaxHeap α :=
  if H.h.length < H.length then ⟨heappush H.h element, H.length⟩
  else ⟨(heappushpop H.h element).2, H.length⟩

/-- Model of `heapq.nlargest n l`: the `n` largest elements of `l` in
descending order. -/
def nlargest {α : Type} [LinearOrder α] (n : Nat) (l : List α) : List α :=
  (List.insertionSort (fun a b => a ≥ b) l).take n

/-- Embedding of `MaxHeap.getTop`: `nlargest(self.length, self.h)`. -/
def MaxHeap.getTop {α : Type} [LinearOrder α] (H : MaxHeap α) : List α :=
  nlargest H.length H.h

/-- Descending sort, the reference order for the heap theorems. -/
def sortD {α : Type} [LinearOrder α] (l : List α) : List α :=
  List.insertionSort (fun a b => a ≥ b) l

end ActivationRank

namespace TestNumStim

/-- Decimal digit characters of a natural number, most significant
first. -/
def natChars (n : Nat) : List Char :=
  if h : n < 10 then [Nat.digitChar n]
  else natChars (n / 10) ++ [Nat.digitChar (n % 10)]
decreasing_by
  exact Nat.div_lt_self (by omega) (by omega)

/-- Exactly `prec` decimal digit characters of `fp`, most significant
first, with leading zeros. -/
def fracChars (prec fp : Nat) : List Char :=
  (List.range prec).map (fun i => Nat.digitChar (fp / 10 ^ (prec - 1 - i) % 10))

/-- Model of the Python fixed-point float format `f"{q:.precf}"` over exact
rationals: sign, integer digits, a point, then exactly `prec` fraction
digits of the value rounded to `prec` decimal places (rounding of the
half-way case is a property of binary floats that no proved statement
depends on). -/
def fmtFixed (prec : Nat) (q : ℚ) : String :=
  let m : Nat := (round (|q| * (10 : ℚ) ^ prec)).toNat
  ((if q < 0 then "-" else "") ++ String.mk (natChars (m / 10 ^ prec)))
    ++ "." ++ String.mk (fracChars prec (m % 10 ^ prec))

/-- The Gaussian-fit parameter vector `raw_params`, indexed in the source
by the `GaussianFitParamFormat` constants of `src.rf_mapping.gaussian_fit`
(a module not present in the sources); modelled as a structure with one
field per index, named after the schema. -/
structure GaussianFitParams where
  A : ℚ
  mu_x : ℚ
  mu_y : ℚ
  sigma_1 : ℚ
  sigma_2 : ℚ
  theta : ℚ
  offset : ℚ

/-- Embedding of `write_txt` of `test_num_stim_step2.py`.  The function
`theta_to_ori` lives in `src.rf_mapping.gaussian_fit`, outside the given
sources, so it is taken as a parameter.  The result is the exact string the
seven `f.write` calls emit for one unit. -/
def write_txt (theta_to_ori : ℚ → ℚ → ℚ → ℚ) (layer_name : String)
    (unit_i : Nat) (raw_params : GaussianFitParams) (fxvar : ℚ)
    (map_size : ℚ) (num_bars : Nat) : String :=
  let amp := raw_params.A
  let mu_x := raw_params.mu_x - map_size / 2
  let mu_y := raw_params.mu_y - map_size / 2
  let sigma_1 := |raw_params.sigma_1|
  let sigma_2 := |raw_params.sigma_2|
  let orientation := theta_to_ori sigma_1 sigma_2 raw_params.theta
  layer_name ++ " " ++ String.mk (natChars unit_i) ++ " " ++
    fmtFixed 2 mu_x ++ " " ++ fmtFixed 2 mu_y ++ " " ++
    fmtFixed 2 sigma_1 ++ " " ++ fmtFixed 2 sigma_2 ++ " " ++
    fmtFixed 2 orientation ++ " " ++
    fmtFixed 3 amp ++ " " ++ fmtFixed 3 raw_params.offset ++ " " ++
    fmtFixed 4 fxvar ++ " " ++ String.mk (natChars num_bars) ++ "\n"

/-- Join fields with single spaces — the whitespace-delimited record shape
of the text report schema. -/
def spaceJoined : List String → String
  | [] => ""
  | [a] => a
  | a :: rest => a ++ " " ++ spaceJoined rest

/-- A string formatted to exactly `prec` decimal places: an integer part
free of points, one point, then exactly `prec` digit characters. -/
def FixedDecimal (prec : Nat) (s : String) : Prop :=
  ∃ intPart fracPart : String,
    s = intPart ++ "." ++ fracPart ∧
    fracPart.length = prec ∧
    (∀ c ∈ fracPart.toList, c.isDigit = true) ∧
    (∀ c ∈ intPart.toList, c ≠ '.')

/-- A string usable as one whitespace-delimited field: free of spaces and
newlines. -/
def FieldSafe (s : String) : Prop :=
  (' ' ∉ s.toList) ∧ ('\n' ∉ s.toList)

end TestNumStim

open ActivationRank TestNumStim

/-- C1 counterexample: for the unsupported kind `Linear`, the one-step
backward transform does not fail at all — it silently returns the input
coordinate unchanged, contradicting the claim that both directions fail
with an error and neither silently applies an identity transform. -/
theorem one_backward_projection_unsupported_is_identity :
    _one_backward_projection (.other "Linear") 3 4 = .ok (3, 4) := rfl

/-- C1 (amended): for every layer kind outside Convolution, MaxPool,
AveragePool and the pass-through tuple, the one-step forward transform
fails — it prints a line naming the offending kind and raises a bare
`ValueError` (there is no `UnsupportedLayerError` in the code) — while the
one-step backward transform does not fail and silently returns the
coordinate unchanged. -/
theorem unsupported_kind_one_step_behavior (ty : String) (vx hx : ℚ) :
    _one_forward_projection (.other ty) vx hx
      = (.error .valueError, [ty ++ " is currently not supported."]) ∧
    _one_backward_projection (.other ty) vx hx = .ok (vx, hx) :=
  ⟨rfl, rfl⟩

/-- C2: the one-step transforms do not compute
`x' = x*stride + (kernel_size-1)/2 - padding` in both directions.  In the
forward direction the `Conv2d` and pool branches raise
`NameError("transform")`, because the helper definition is commented out;
in the backward direction `Conv2d` (and `MaxPool2d`) do compute the
formula — here `5*2 + (3-1)/2 - 0 = 11` on both axes — but `AvgPool2d` has
no backward branch and falls to the identity catch-all, returning `(5, 5)`
where the formula would give `(10.5, 10.5)`. -/
theorem one_step_transform_divergence :
    _one_forward_projection (.conv2d (1, 1) (3, 3) (1, 1)) 5 5
      = (.error (.nameError "transform"), []) ∧
    _one_forward_projection (.maxPool2d (2, 2) (2, 2) (0, 0)) 1 1
      = (.error (.nameError "transform"), []) ∧
    _one_forward_projection (.avgPool2d (2, 2) (2, 2) (0, 0)) 1 1
      = (.error (.nameError "transform"), []) ∧
    _one_backward_projection (.conv2d (2, 2) (3, 3) (0, 0)) 5 5
      = .ok (11, 11) ∧
    _one_backward_projection (.avgPool2d (2, 2) (2, 2) (0, 0)) 5 5
      = .ok (5, 5) := by
  refine ⟨rfl, rfl, rfl, ?_, rfl⟩
  show Except.ok (transform 5 2 3 0, transform 5 2 3 0) = Except.ok (11, 11)
  norm_num [transform]

/-- C3: `forward_projection` performs no layer walk.  On a two-convolution
layer table, with `start_layer = 5 > end_layer = 0` (so the claim demands
an `InvalidRangeError`), it merely normalises the index and returns Python
`None` — no accumulated point and no error. -/
theorem forward_projection_is_stub :
    (SpatialIndexConversion.init
        [Layer.conv2d (1, 1) (3, 3) (1, 1), Layer.conv2d (1, 1) (3, 3) (1, 1)]
        (227, 227)).forward_projection (.str "ab") 5 0 = .ok none := by
  decide

/-- C4: on the chain of two `Conv2d(kernel=3, stride=1, padding=1)` layers,
`backward_projection` of the point `(5, 5)` does not return the box
`(3, 3, 7, 7)`: passing the point as a tuple raises `AttributeError` inside
`_process_index` (tuples have no `isnumeric`), and even the one-step
backward transform only maps the point `(5, 5)` to the point `(5, 5)`
(`5*1 + (3-1)/2 - 1 = 5`) — no box is ever produced. -/
theorem backward_projection_no_box :
    (SpatialIndexConversion.init
        [Layer.conv2d (1, 1) (3, 3) (1, 1), Layer.conv2d (1, 1) (3, 3) (1, 1)]
        (227, 227)).backward_projection (.tuple [5, 5]) 2 0
      = .error (.attributeError "tuple" "isnumeric") ∧
    _one_backward_projection (.conv2d (1, 1) (3, 3) (1, 1)) 5 5
      = .ok (5, 5) := by
  constructor
  · decide
  · show Except.ok (transform 5 1 3 1, transform 5 1 3 1) = Except.ok (5, 5)
    norm_num [transform]

/-- C5 counterexample: on a chain consisting solely of pass-through layers
(`ReLU` then `Sigmoid`), `forward_projection` of the point `(3, 4)` is not
that point — the tuple index raises `AttributeError`, and had the index
survived normalisation the stub body would still return `None`. -/
theorem forward_projection_passthrough_not_point :
    (SpatialIndexConversion.init [Layer.relu, Layer.sigmoid] (227, 227)).forward_projection
        (.tuple [3, 4]) 0 1 ≠ .ok (some (3, 4)) := by
  decide

/-- C5 (amended): for every pass-through layer kind, the one-step transform
returns the input coordinate unchanged in both directions; the chain-level
identity claimed for `forward_projection` fails, however, since that method
is a stub (see the counterexample). -/
theorem passthrough_one_step_identity (layer : Layer) (vx hx : ℚ)
    (h : isPassThrough layer = true) :
    _one_forward_projection layer vx hx = (.ok (vx, hx), []) ∧
    _one_backward_projection layer vx hx = .ok (vx, hx) := by
  cases layer <;> first
    | exact ⟨rfl, rfl⟩
    | simp [isPassThrough] at h

/-- Witness for the amended C5 theorem at the `ReLU` kind and the
coordinate `(3, 4)`. -/
theorem passthrough_one_step_identity_witness :
    isPassThrough Layer.relu = true ∧
    (_one_forward_projection Layer.relu 3 4 = (.ok (3, 4), []) ∧
      _one_backward_projection Layer.relu 3 4 = .ok (3, 4)) :=
  ⟨rfl, passthrough_one_step_identity Layer.relu 3 4 rfl⟩

/-- C6: `_process_index` does not unravel flat integers and does not pass
tuples through — evaluating `index.isnumeric()` raises `AttributeError`
for both, since neither `int` nor `tuple` has that attribute — and an
index that is neither (here the string `"abc"`) yields Python `None`
rather than an `InvalidIndexError`. -/
theorem process_index_divergence :
    (SpatialIndexConversion.init [] (227, 227))._process_index (.int 5)
      = .error (.attributeError "int" "isnumeric") ∧
    (SpatialIndexConversion.init [] (227, 227))._process_index (.tuple [2, 3])
      = .error (.attributeError "tuple" "isnumeric") ∧
    (SpatialIndexConversion.init [] (227, 227))._process_index (.str "abc")
      = .ok none := by
  refine ⟨rfl, rfl, ?_⟩
  decide

/-- A hooked forward pass returns the module output, with the recorded list
extended (never reset) by the outputs of the matching leaves in execution
order. -/
theorem hookedForward_eq {α : Type} (lt : String) :
    ∀ (m : Module α) (x : α) (acc : List α),
      hookedForward lt m x acc = (runModule m x, acc ++ matchingOutputs lt m x) := by
  intro m x acc
  induction m, x, acc using hookedForward.induct lt with
  | case1 kind f x acc =>
      by_cases h : kind = lt <;>
        simp [hookedForward, runModule, matchingOutputs, h]
  | case2 x acc =>
      simp [hookedForward, runModule, matchingOutputs]
  | case3 c cs x acc p ihc ihcs =>
      unfold p at ihcs
      simp only [ihc] at ihcs
      simp only [hookedForward, runModule, matchingOutputs, ihc]
      rw [ihcs]
      simp [List.append_assoc]

/-- The number of outputs one pass records equals the number of matching
leaves, whatever the input. -/
theorem matchingOutputs_length {α : Type} (lt : String) :
    ∀ (m : Module α) (x : α),
      (matchingOutputs lt m x).length = countMatching lt m := by
  intro m x
  induction m, x using matchingOutputs.induct lt <;>
    simp_all [matchingOutputs, countMatching]

/-- C7: on a model with `k` leaves matching the requested layer type, the
first `inspect` call of a fresh inspector returns exactly the `k` matching
layer outputs in execution order; a second call on the same instance
returns a list of `2k` outputs, because the recorded list is never
reset. -/
theorem inspect_records_then_doubles (m : Module Buf) (lt : String)
    (img img' : Buf) :
    inspect m lt [] img = matchingOutputs lt m (normalizeImage img) ∧
    (inspect m lt [] img).length = countMatching lt m ∧
    (inspect m lt (inspect m lt [] img) img').length
      = 2 * countMatching lt m := by
  have h1 := hookedForward_eq lt m (normalizeImage img) []
  have h2 := hookedForward_eq lt m (normalizeImage img')
      (inspect m lt [] img)
  have e1 : inspect m lt [] img = matchingOutputs lt m (normalizeImage img) := by
    simp [inspect, h1]
  have e2 : inspect m lt (inspect m lt [] img) img'
      = inspect m lt [] img ++ matchingOutputs lt m (normalizeImage img') := by
    simp only [inspect] at h2 ⊢
    rw [h2]
  refine ⟨e1, ?_, ?_⟩
  · rw [e1, matchingOutputs_length]
  · rw [e2, List.length_append, e1, matchingOutputs_length,
      matchingOutputs_length]
    omega

/-- Reading back the buffer just allocated yields its contents. -/
theorem listGetD_append_self {α : Type} (l₁ : List α) (b : α) (l₂ : List α)
    (d : α) : (l₁ ++ b :: l₂).getD l₁.length d = b := by
  induction l₁ with
  | nil => rfl
  | cons a t ih => simpa using ih

/-- Appending buffers does not change reads below the old length. -/
theorem listGetD_append_lt {α : Type} (l₁ l₂ : List α) (d : α) :
    ∀ n, n < l₁.length → (l₁ ++ l₂).getD n d = l₁.getD n d := by
  induction l₁ with
  | nil => intro n h; simp at h
  | cons a t ih =>
      intro n h
      cases n with
      | zero => rfl
      | succ k => simpa using ih k (by simpa using h)

/-- Reading the reference returned by `alloc` yields the allocated
contents. -/
theorem readBuf_alloc_self (st : Store) (b : Buf) :
    readBuf (alloc st b).1 (alloc st b).2 = b := by
  simp only [readBuf, alloc]
  exact listGetD_append_self st.bufs b [] []

/-- `alloc` leaves every previously existing buffer unchanged. -/
theorem readBuf_alloc_lt (st : Store) (b : Buf) (i : Nat)
    (h : i < st.bufs.length) : readBuf (alloc st b).1 i = readBuf st i := by
  simpa [readBuf, alloc] using listGetD_append_lt st.bufs [b] [] i h

/-- `alloc` grows the store by one buffer. -/
theorem alloc_length (st : Store) (b : Buf) :
    (alloc st b).1.bufs.length = st.bufs.length + 1 := by
  simp [alloc]

/-- The preprocessing chain of `inspect` writes no existing buffer: it only
allocates, the reference it returns is fresh, and that fresh buffer holds
the normalised copy of the image. -/
theorem inspectPreprocess_frame (st : Store) (image : Nat) :
    (∀ i, i < st.bufs.length →
        readBuf (inspectPreprocess st image).1 i = readBuf st i) ∧
    st.bufs.length ≤ (inspectPreprocess st image).2 ∧
    readBuf (inspectPreprocess st image).1 (inspectPreprocess st image).2
      = normalizeImage (readBuf st image) := by
  simp only [inspectPreprocess, npSubScalar, npDivScalar, npExpandDims,
    readBuf_alloc_self]
  refine ⟨?_, ?_, ?_⟩
  · intro i hi
    rw [readBuf_alloc_lt _ _ _ (by simp [alloc_length]; omega),
      readBuf_alloc_lt _ _ _ (by simp [alloc_length]; omega),
      readBuf_alloc_lt _ _ _ hi]
  · simp [alloc]
  · simp [normalizeImage]

/-- C8: `inspect` preprocesses into freshly allocated buffers, leaving
every pre-existing buffer — in particular the caller's image — unchanged,
and the contents it feeds to the model are the normalised copy (subtract
the minimum, then divide by the maximum of the shifted array) of the
original image contents. -/
theorem inspect_preserves_caller_buffer (m : Module Buf) (lt : String)
    (outs : List Buf) (st : Store) (image i : Nat)
    (hi : i < st.bufs.length) :
    readBuf (inspectBuffers m lt outs st image).1 i = readBuf st i ∧
    st.bufs.length ≤ (inspectPreprocess st image).2 ∧
    (inspectBuffers m lt outs st image).2
      = (hookedForward lt m (normalizeImage (readBuf st image)) outs).2 := by
  obtain ⟨hfr, hfresh, hcontent⟩ := inspectPreprocess_frame st image
  exact ⟨hfr i hi, hfresh, by simp [inspectBuffers, hcontent]⟩

/-- Witness for C8 at a one-buffer store holding the image `[1, 2]`. -/
theorem inspect_preserves_caller_buffer_witness :
    (0 : Nat) < (Store.mk [[1, 2]]).bufs.length ∧
    (readBuf (inspectBuffers (Module.node []) "Conv2d" []
          (Store.mk [[1, 2]]) 0).1 0 = readBuf (Store.mk [[1, 2]]) 0 ∧
      (Store.mk [[1, 2]]).bufs.length
          ≤ (inspectPreprocess (Store.mk [[1, 2]]) 0).2 ∧
      (inspectBuffers (Module.node []) "Conv2d" [] (Store.mk [[1, 2]]) 0).2
        = (hookedForward "Conv2d" (Module.node [])
            (normalizeImage (readBuf (Store.mk [[1, 2]]) 0)) []).2) :=
  ⟨by decide,
    inspect_preserves_caller_buffer (Module.node []) "Conv2d" []
      (Store.mk [[1, 2]]) 0 0 (by decide)⟩

/-- Dropping the last element of a length-`n` prefix is the length-`n-1`
prefix. -/
theorem dropLast_take_eq {α : Type} (l : List α) (n : Nat) (h2 : n ≤ l.length) :
    (l.take n).dropLast = l.take (n - 1) := by
  rw [List.dropLast_eq_take, List.length_take, List.take_take]
  congr 1
  omega

/-- Dropping the last element below a cons with a nonempty tail. -/
theorem dropLast_cons_ne {α : Type} (a : α) (l : List α) (h : l ≠ []) :
    (a :: l).dropLast = a :: l.dropLast := by
  cases l with
  | nil => exact absurd rfl h
  | cons b t => rfl

/-- An ordered insertion is never the empty list. -/
theorem orderedInsert_ne_nil {α : Type} (r : α → α → Prop) [DecidableRel r]
    (x : α) (l : List α) : List.orderedInsert r x l ≠ [] := by
  intro h
  have hl := List.orderedInsert_length r l x
  rw [h] at hl
  simp at hl

/-- Key step for the bounded heap: inserting into a capacity-`n` prefix and
evicting the last element is the same as inserting into the whole list and
keeping the first `n` elements. -/
theorem orderedInsert_take_dropLast {α : Type} (r : α → α → Prop)
    [DecidableRel r] (x : α) :
    ∀ (s : List α) (n : Nat), 0 < n → n ≤ s.length →
      (List.orderedInsert r x (s.take n)).dropLast
        = (List.orderedInsert r x s).take n := by
  intro s
  induction s with
  | nil =>
      intro n h1 h2
      simp at h2
      omega
  | cons b t ih =>
      intro n h1 h2
      obtain ⟨m, rfl⟩ : ∃ m, n = m + 1 := ⟨n - 1, by omega⟩
      rw [List.take_succ_cons]
      by_cases hq : r x b
      · simp only [List.orderedInsert, if_pos hq]
        rw [List.take_succ_cons, dropLast_cons_ne x (b :: t.take m) (by simp)]
        congr 1
        have he : b :: t.take m = (b :: t).take (m + 1) := by
          rw [List.take_succ_cons]
        rw [he, dropLast_take_eq (b :: t) (m + 1) (by simpa using h2)]
        simp
      · simp only [List.orderedInsert, if_neg hq]
        rw [List.take_succ_cons,
          dropLast_cons_ne b _ (orderedInsert_ne_nil r x (t.take m))]
        congr 1
        cases Nat.eq_zero_or_pos m with
        | inl h0 =>
            subst h0
            simp [List.orderedInsert]
        | inr hm =>
            exact ih m hm (by simpa using Nat.le_of_succ_le_succ h2)

/-- Sorting after appending one element is ordered insertion into the
sorted list. -/
theorem sortD_concat {α : Type} [LinearOrder α] (ys : List α) (x : α) :
    sortD (ys ++ [x])
      = List.orderedInsert (fun a b => a ≥ b) x (sortD ys) := by
  have hperm : List.Perm (sortD (ys ++ [x]))
      (List.orderedInsert (fun a b => a ≥ b) x (sortD ys)) := by
    have p1 : List.Perm (sortD (ys ++ [x])) (ys ++ [x]) :=
      List.perm_insertionSort _ _
    have p2 : List.Perm (ys ++ [x]) (x :: ys) :=
      List.perm_append_singleton x ys
    have p3 : List.Perm (x :: ys) (x :: sortD ys) :=
      (List.perm_insertionSort _ ys).symm.cons x
    have p4 : List.Perm (x :: sortD ys)
        (List.orderedInsert (fun a b => a ≥ b) x (sortD ys)) :=
      (List.perm_orderedInsert _ x (sortD ys)).symm
    exact ((p1.trans p2).trans p3).trans p4
  have hs1 : List.Sorted (fun a b => a ≥ b) (sortD (ys ++ [x])) :=
    List.sorted_insertionSort _ _
  have hs2 : List.Sorted (fun a b => a ≥ b)
      (List.orderedInsert (fun a b => a ≥ b) x (sortD ys)) :=
    List.Sorted.orderedInsert x (sortD ys) (List.sorted_insertionSort _ _)
  exact List.eq_of_perm_of_sorted hperm hs1 hs2

/-- Fold invariant of `MaxHeap.add`: starting from the `N` largest of the
elements seen so far (in descending order), folding further elements keeps
exactly the `N` largest of all elements seen. -/
theorem foldl_add_sorted {α : Type} [LinearOrder α] (N : Nat) (hN : 1 ≤ N) :
    ∀ (xs ys : List α),
      List.foldl MaxHeap.add ⟨(sortD ys).take N, N⟩ xs
        = ⟨(sortD (ys ++ xs)).take N, N⟩ := by
  intro xs
  induction xs with
  | nil => intro ys; simp
  | cons x xs ih =>
      intro ys
      have step : MaxHeap.add (⟨(sortD ys).take N, N⟩ : MaxHeap α) x
          = ⟨(sortD (ys ++ [x])).take N, N⟩ := by
        rw [sortD_concat]
        by_cases hlen : ((sortD ys).take N).length < N
        · have hlt : (sortD ys).length < N := by
            rw [List.length_take] at hlen
            omega
          simp only [MaxHeap.add, if_pos hlen, heappush]
          rw [List.take_of_length_le (Nat.le_of_lt hlt),
            List.take_of_length_le
              (by rw [List.orderedInsert_length]; omega)]
        · have hge : N ≤ (sortD ys).length := by
            rw [List.length_take] at hlen
            omega
          simp only [MaxHeap.add, if_neg hlen, heappushpop, heappush]
          rw [orderedInsert_take_dropLast _ x (sortD ys) N hN hge]
      rw [List.foldl_cons, step, ih (ys ++ [x])]
      simp

/-- C10: with capacity `N ≥ 1`, after any prefix `p` of the insertion
sequence `p ++ q` the heap's internal list holds at most `N` elements, and
after the whole sequence `getTop` returns exactly the `N` largest inserted
elements (all of them when fewer than `N` were inserted) in descending
order. -/
theorem maxHeap_bounded_and_top {α : Type} [LinearOrder α] (N : Nat)
    (p q : List α) (hN : 1 ≤ N) :
    (List.foldl MaxHeap.add (MaxHeap.init α N) p).h.length ≤ N ∧
    (List.foldl MaxHeap.add (MaxHeap.init α N) (p ++ q)).getTop
      = (sortD (p ++ q)).take N := by
  have hinit : (MaxHeap.init α N)
      = (⟨(sortD ([] : List α)).take N, N⟩ : MaxHeap α) := by
    simp [MaxHeap.init, sortD, List.insertionSort]
  constructor
  · rw [hinit, foldl_add_sorted N hN p []]
    simp [List.length_take]
  · rw [hinit, foldl_add_sorted N hN (p ++ q) []]
    simp only [List.nil_append, MaxHeap.getTop, nlargest]
    have hs : List.Sorted (fun a b => a ≥ b) ((sortD (p ++ q)).take N) :=
      List.Pairwise.sublist (List.take_sublist _ _)
        (List.sorted_insertionSort _ (p ++ q))
    rw [List.Sorted.insertionSort_eq hs, List.take_take]
    simp

/-- Witness for C10 at capacity 2 and the integer sequence
`[3, 1, 4, 1, 5]`, split after its first two elements. -/
theorem maxHeap_bounded_and_top_witness :
    (1 : Nat) ≤ 2 ∧
    ((List.foldl MaxHeap.add (MaxHeap.init ℤ 2) [3, 1]).h.length ≤ 2 ∧
      (List.foldl MaxHeap.add (MaxHeap.init ℤ 2) ([3, 1] ++ [4, 1, 5])).getTop
        = (sortD (([3, 1] ++ [4, 1, 5]) : List ℤ)).take 2) :=
  ⟨by decide, maxHeap_bounded_and_top 2 [3, 1] [4, 1, 5] (by decide)⟩

/-- Digit characters for digits below ten. -/
theorem digitChar_isDigit (d : Nat) (h : d < 10) :
    (Nat.digitChar d).isDigit = true := by
  interval_cases d <;> decide

/-- The decimal rendering of a natural number is all digit characters. -/
theorem natChars_digits (n : Nat) :
    ∀ c ∈ natChars n, c.isDigit = true := by
  induction n using natChars.induct with
  | case1 n h =>
      intro c hc
      rw [natChars, dif_pos h] at hc
      simp at hc
      subst hc
      exact digitChar_isDigit n h
  | case2 n h ih =>
      intro c hc
      rw [natChars, dif_neg h] at hc
      rcases List.mem_append.mp hc with hc | hc
      · exact ih c hc
      · simp at hc
        subst hc
        exact digitChar_isDigit _ (Nat.mod_lt _ (by omega))

/-- The padded fraction digits have exactly the requested length. -/
theorem fracChars_length (prec fp : Nat) : (fracChars prec fp).length = prec := by
  simp [fracChars]

/-- The padded fraction digits are all digit characters. -/
theorem fracChars_digits (prec fp : Nat) :
    ∀ c ∈ fracChars prec fp, c.isDigit = true := by
  intro c hc
  simp only [fracChars, List.mem_map, List.mem_range] at hc
  obtain ⟨i, _, rfl⟩ := hc
  exact digitChar_isDigit _ (Nat.mod_lt _ (by omega))

/-- A character that is not a digit does not occur in an all-digit list. -/
theorem not_mem_of_digits (l : List Char)
    (hd : ∀ c ∈ l, c.isDigit = true) (c : Char) (hc : c.isDigit = false) :
    c ∉ l := by
  intro hm
  rw [hd c hm] at hc
  cases hc

/-- The character list of a formatted fixed-point number: optional sign,
integer digits, the point, then the padded fraction digits. -/
theorem fmtFixed_data (prec : Nat) (q : ℚ) :
    (fmtFixed prec q).toList
      = (if q < 0 then ['-'] else [])
        ++ natChars ((round (|q| * (10 : ℚ) ^ prec)).toNat / 10 ^ prec)
        ++ ['.']
        ++ fracChars prec ((round (|q| * (10 : ℚ) ^ prec)).toNat % 10 ^ prec) := by
  simp only [fmtFixed]
  split <;> rfl

/-- Every character of a formatted fixed-point number is a sign, a digit,
or the point. -/
theorem fmtFixed_chars (prec : Nat) (q : ℚ) :
    ∀ c ∈ (fmtFixed prec q).toList,
      c = '-' ∨ c = '.' ∨ c.isDigit = true := by
  intro c hc
  rw [fmtFixed_data] at hc
  rcases List.mem_append.mp hc with hc | hc
  · rcases List.mem_append.mp hc with hc | hc
    · rcases List.mem_append.mp hc with hc | hc
      · left
        split at hc <;> simp_all
      · right; right
        exact natChars_digits _ c hc
    · right; left
      simp_all
  · right; right
    exact fracChars_digits _ _ c hc

/-- A formatted fixed-point number contains neither spaces nor
newlines. -/
theorem fmtFixed_fieldSafe (prec : Nat) (q : ℚ) :
    FieldSafe (fmtFixed prec q) := by
  constructor <;>
    · intro hm
      rcases fmtFixed_chars prec q _ hm with h | h | h <;> simp_all

/-- A formatted fixed-point number has exactly `prec` decimal places. -/
theorem fmtFixed_fixedDecimal (prec : Nat) (q : ℚ) :
    FixedDecimal prec (fmtFixed prec q) := by
  refine ⟨(if q < 0 then "-" else "")
      ++ String.mk (natChars ((round (|q| * (10 : ℚ) ^ prec)).toNat / 10 ^ prec)),
    String.mk (fracChars prec ((round (|q| * (10 : ℚ) ^ prec)).toNat % 10 ^ prec)),
    rfl, ?_, ?_, ?_⟩
  · exact fracChars_length prec _
  · exact fracChars_digits prec _
  · intro c hc
    have e : ((if q < 0 then "-" else "")
          ++ String.mk (natChars ((round (|q| * (10 : ℚ) ^ prec)).toNat / 10 ^ prec))).toList
        = (if q < 0 then ['-'] else [])
          ++ natChars ((round (|q| * (10 : ℚ) ^ prec)).toNat / 10 ^ prec) := by
      split <;> rfl
    rw [e] at hc
    rcases List.mem_append.mp hc with h | h
    · split at h <;> simp_all
    · intro h'
      subst h'
      exact not_mem_of_digits _ (natChars_digits _) '.' (by decide) h

/-- The decimal rendering of a natural number is a safe field. -/
theorem natChars_fieldSafe (n : Nat) : FieldSafe (String.mk (natChars n)) := by
  constructor <;> exact not_mem_of_digits _ (natChars_digits n) _ (by decide)

/-- Joining newline-free fields with spaces yields a newline-free
string. -/
theorem spaceJoined_no_nl :
    ∀ (l : List String), (∀ s ∈ l, '\n' ∉ s.toList) →
      '\n' ∉ (spaceJoined l).toList := by
  intro l
  induction l with
  | nil => intro _ h; simp [spaceJoined] at h
  | cons a t ih =>
      intro hl
      cases t with
      | nil =>
          simpa [spaceJoined] using hl a (by simp)
      | cons b t' =>
          intro hm
          have e : (a ++ " " ++ spaceJoined (b :: t')).toList
              = a.toList ++ ([' '] ++ (spaceJoined (b :: t')).toList) := by
            rw [String.append_assoc]
            exact String.data_append _ _
          rw [show spaceJoined (a :: b :: t') = a ++ " " ++ spaceJoined (b :: t')
              from rfl, e] at hm
          rcases List.mem_append.mp hm with h | h
          · exact hl a (by simp) h
          · rcases List.mem_append.mp h with h | h
            · simp at h
            · exact ih (fun s hs => hl s (by simp [hs])) h

/-- C9: every line produced by `write_txt` is the whitespace-delimited
record `layer_name unit_index mu_x mu_y sigma_1 sigma_2 orientation
amplitude offset fraction_variance_explained bar_count` followed by a
single newline: the eight floating fields are fixed-point strings with
2, 2, 2, 2, 2, 3, 3 and 4 decimal places respectively, every field is free
of whitespace, and the produced string contains exactly one newline, at
the end — one line per unit. -/
theorem write_txt_schema (tto : ℚ → ℚ → ℚ → ℚ) (layer_name : String)
    (unit_i : Nat) (raw : GaussianFitParams) (fxvar map_size : ℚ)
    (num_bars : Nat) (hn : '\n' ∉ layer_name.toList) :
    ∃ f1 f2 f3 f4 f5 f6 f7 f8 : String,
      write_txt tto layer_name unit_i raw fxvar map_size num_bars
          = spaceJoined [layer_name, String.mk (natChars unit_i), f1, f2,
              f3, f4, f5, f6, f7, f8, String.mk (natChars num_bars)]
            ++ "\n" ∧
      FixedDecimal 2 f1 ∧ FixedDecimal 2 f2 ∧ FixedDecimal 2 f3 ∧
      FixedDecimal 2 f4 ∧ FixedDecimal 2 f5 ∧ FixedDecimal 3 f6 ∧
      FixedDecimal 3 f7 ∧ FixedDecimal 4 f8 ∧
      (∀ f ∈ [f1, f2, f3, f4, f5, f6, f7, f8], FieldSafe f) ∧
      (write_txt tto layer_name unit_i raw fxvar map_size num_bars).toList.count '\n'
        = 1 := by
  refine ⟨fmtFixed 2 (raw.mu_x - map_size / 2),
    fmtFixed 2 (raw.mu_y - map_size / 2),
    fmtFixed 2 |raw.sigma_1|, fmtFixed 2 |raw.sigma_2|,
    fmtFixed 2 (tto |raw.sigma_1| |raw.sigma_2| raw.theta),
    fmtFixed 3 raw.A, fmtFixed 3 raw.offset, fmtFixed 4 fxvar,
    ?_, fmtFixed_fixedDecimal 2 _, fmtFixed_fixedDecimal 2 _,
    fmtFixed_fixedDecimal 2 _, fmtFixed_fixedDecimal 2 _,
    fmtFixed_fixedDecimal 2 _, fmtFixed_fixedDecimal 3 _,
    fmtFixed_fixedDecimal 3 _, fmtFixed_fixedDecimal 4 _, ?_, ?_⟩
  · simp [write_txt, spaceJoined, String.append_assoc]
  · intro f hf
    simp only [List.mem_cons, List.not_mem_nil, or_false] at hf
    rcases hf with rfl | rfl | rfl | rfl | rfl | rfl | rfl | rfl <;>
      exact fmtFixed_fieldSafe _ _
  · have hw : write_txt tto layer_name unit_i raw fxvar map_size num_bars
        = spaceJoined [layer_name, String.mk (natChars unit_i),
            fmtFixed 2 (raw.mu_x - map_size / 2),
            fmtFixed 2 (raw.mu_y - map_size / 2),
            fmtFixed 2 |raw.sigma_1|, fmtFixed 2 |raw.sigma_2|,
            fmtFixed 2 (tto |raw.sigma_1| |raw.sigma_2| raw.theta),
            fmtFixed 3 raw.A, fmtFixed 3 raw.offset, fmtFixed 4 fxvar,
            String.mk (natChars num_bars)] ++ "\n" := by
      simp [write_txt, spaceJoined, String.append_assoc]
    rw [hw]
    have hnl : '\n' ∉ (spaceJoined [layer_name, String.mk (natChars unit_i),
        fmtFixed 2 (raw.mu_x - map_size / 2),
        fmtFixed 2 (raw.mu_y - map_size / 2),
        fmtFixed 2 |raw.sigma_1|, fmtFixed 2 |raw.sigma_2|,
        fmtFixed 2 (tto |raw.sigma_1| |raw.sigma_2| raw.theta),
        fmtFixed 3 raw.A, fmtFixed 3 raw.offset, fmtFixed 4 fxvar,
        String.mk (natChars num_bars)]).toList := by
      apply spaceJoined_no_nl
      intro s hs
      simp only [List.mem_cons, List.not_mem_nil, or_false] at hs
      rcases hs with rfl | rfl | rfl | rfl | rfl | rfl | rfl | rfl | rfl | rfl | rfl
      · exact hn
      · exact (natChars_fieldSafe _).2
      · exact (fmtFixed_fieldSafe _ _).2
      · exact (fmtFixed_fieldSafe _ _).2
      · exact (fmtFixed_fieldSafe _ _).2
      · exact (fmtFixed_fieldSafe _ _).2
      · exact (fmtFixed_fieldSafe _ _).2
      · exact (fmtFixed_fieldSafe _ _).2
      · exact (fmtFixed_fieldSafe _ _).2
      · exact (fmtFixed_fieldSafe _ _).2
      · exact (natChars_fieldSafe _).2
    have e : ((spaceJoined [layer_name, String.mk (natChars unit_i),
        fmtFixed 2 (raw.mu_x - map_size / 2),
        fmtFixed 2 (raw.mu_y - map_size / 2),
        fmtFixed 2 |raw.sigma_1|, fmtFixed 2 |raw.sigma_2|,
        fmtFixed 2 (tto |raw.sigma_1| |raw.sigma_2| raw.theta),
        fmtFixed 3 raw.A, fmtFixed 3 raw.offset, fmtFixed 4 fxvar,
        String.mk (natChars num_bars)]) ++ "\n").toList
        = (spaceJoined [layer_name, String.mk (natChars unit_i),
            fmtFixed 2 (raw.mu_x - map_size / 2),
            fmtFixed 2 (raw.mu_y - map_size / 2),
            fmtFixed 2 |raw.sigma_1|, fmtFixed 2 |raw.sigma_2|,
            fmtFixed 2 (tto |raw.sigma_1| |raw.sigma_2| raw.theta),
            fmtFixed 3 raw.A, fmtFixed 3 raw.offset, fmtFixed 4 fxvar,
            String.mk (natChars num_bars)]).toList ++ ['\n'] :=
      String.data_append _ _
    rw [e, List.count_append, List.count_eq_zero_of_not_mem hnl]
    rfl

/-- Witness for C9 at the layer name used by the script, unit 0, zero
parameters, and 25 bars. -/
theorem write_txt_schema_witness :
    ('\n' ∉ ("conv3" : String).toList) ∧
    (∃ f1 f2 f3 f4 f5 f6 f7 f8 : String,
      write_txt (fun _ _ t => t) "conv3" 0 ⟨0, 0, 0, 0, 0, 0, 0⟩ 0 0 25
          = spaceJoined ["conv3", String.mk (natChars 0), f1, f2, f3, f4,
              f5, f6, f7, f8, String.mk (natChars 25)] ++ "\n" ∧
      FixedDecimal 2 f1 ∧ FixedDecimal 2 f2 ∧ FixedDecimal 2 f3 ∧
      FixedDecimal 2 f4 ∧ FixedDecimal 2 f5 ∧ FixedDecimal 3 f6 ∧
      FixedDecimal 3 f7 ∧ FixedDecimal 4 f8 ∧
      (∀ f ∈ [f1, f2, f3, f4, f5, f6, f7, f8], FieldSafe f) ∧
      (write_txt (fun _ _ t => t) "conv3" 0 ⟨0, 0, 0, 0, 0, 0, 0⟩ 0 0 25).toList.count '\n'
        = 1) :=
  ⟨by decide,
    write_txt_schema (fun _ _ t => t) "conv3" 0 ⟨0, 0, 0, 0, 0, 0, 0⟩ 0 0 25
      (by decide)⟩
